import Mathlib

set_option maxRecDepth 10000

namespace FoodPriceFinder

attribute [local semireducible] Rat.add Rat.mul Rat.inv Rat.sub

/-!
Shallow embedding of `src/fetch_prices.py`.

Modelling conventions:
* Strings are Lean `String`s; prices are exact rationals (`ℚ`), standing for
  the decimal value CPython's `float` parses (the strings reachable here are
  plain digit/dot strings, so no sign, exponent, underscore, infinity or nan
  forms arise, and the exact decimal value is what the program's behaviour
  depends on).
* A parsed HTML document (`BeautifulSoup` object) is a `Doc`: its list of
  href-bearing anchors in document order (`find_all("a", href=True)`), and
  its `select_one` behaviour as a function from selector to the first
  matching element, if any.
* Effectful calls are supplied by an explicit environment `Env`: an HTTP GET
  that either raises (`none`) or yields a parsed document plus final URL,
  a Selenium navigation with the same shape (document plus the driver's
  current URL afterwards), whether the n-th driver-creation attempt
  succeeds, and whether the n-th spreadsheet write succeeds.  A run emits a
  trace of `SEvent`s (store queried, driver created, creation failed,
  driver quit, cell written) so resource-lifecycle and write-back claims
  can be stated.
* Python exception handling becomes `Option`/`Except`: every `except`
  block in the source catches everything, which the embedding reflects by
  total functions.
-/

/-- Decimal value of a digit string, most significant digit first. -/
def digitsVal (l : List Char) : ℚ :=
  l.foldl (fun a c => 10 * a + ((c.toNat - 48 : ℕ) : ℚ)) 0

/-- Models CPython `float(s)` for strings over the alphabet of digits and
dots (the only strings `parse_price` ever converts): conversion succeeds
iff the string has at least one digit and at most one dot, and the value is
the exact decimal value. -/
def pyFloat? (l : List Char) : Option ℚ :=
  if (l.all fun c => c.isDigit || c == '.') && decide (l.count '.' ≤ 1)
      && l.any Char.isDigit then
    some (digitsVal (l.takeWhile fun c => c != '.') +
      digitsVal ((l.dropWhile fun c => c != '.').drop 1) /
        10 ^ ((l.dropWhile fun c => c != '.').drop 1).length)
  else none

/-- Remainder after the character cleaning of `parse_price`: first
`re.sub(r"[^0-9.,]", "", text)`, then `.replace(",", "")`. -/
def cleanedOf (s : String) : List Char :=
  (s.toList.filter fun c => c.isDigit || c == '.' || c == ',').filter
    fun c => c != ','

/-- Declarative description of a remainder CPython `float` accepts: at most
one dot and at least one digit. -/
def PyNumeric (l : List Char) : Prop :=
  l.count '.' ≤ 1 ∧ l.any Char.isDigit = true

/-- Embeds `parse_price` (src/fetch_prices.py:173-179): strip every
character that is not a digit, dot or comma, drop the commas, attempt
`float`, and turn `ValueError` into `None`. Totality of this definition is
the model of "no exception escapes". -/
def parse_price (s : String) : Option ℚ :=
  pyFloat? (cleanedOf s)

/-- Python `str.strip()` on a character list: drop leading and trailing
whitespace. -/
def stripL (l : List Char) : List Char :=
  ((l.dropWhile Char.isWhitespace).reverse.dropWhile Char.isWhitespace).reverse

/-- Python `str.strip()` on strings. -/
def pyStrip (s : String) : String :=
  String.mk (stripL s.toList)

/-- An element as the extractor sees it: its `content` attribute (absent
when the tag carries none) and its `stripped_strings` (the
whitespace-stripped descendant text nodes, in document order). -/
structure Element where
  contentAttr : Option String
  strippedStrings : List String

/-- An anchor tag with an `href`, as `find_all("a", href=True)` yields it:
the href, the visible text `a.get_text(" ", strip=True)` and the title
attribute `a.get("title", "")`. -/
structure Anchor where
  href : String
  text : String
  title : String

/-- A parsed document: its href-bearing anchors in document order, and its
`select_one` behaviour (first element matching a selector, if any). -/
structure Doc where
  anchors : List Anchor
  sel : String → Option Element

/-- Text handed to `parse_price` for one element (src/fetch_prices.py:189-192):
`elem.get("content")` when that is truthy (present and nonempty), else the
space-join of the element's stripped strings. -/
def elemPriceText (e : Element) : String :=
  match e.contentAttr with
  | some t => if t = "" then String.intercalate " " e.strippedStrings else t
  | none => String.intercalate " " e.strippedStrings

/-- Embeds `extract_price_from_soup` (src/fetch_prices.py:182-196): walk the
selectors in order, skip selectors with no match, parse the matched
element's text, and return the first price obtained. -/
def extract_price_from_soup (doc : Doc) : List String → Option ℚ
  | [] => none
  | s :: rest =>
    match doc.sel s with
    | none => extract_price_from_soup doc rest
    | some e =>
      match parse_price (elemPriceText e) with
      | some p => some p
      | none => extract_price_from_soup doc rest

/-- Price one selector yields: first matching element fed to the parser. -/
def selPrice (doc : Doc) (s : String) : Option ℚ :=
  (doc.sel s).bind fun e => parse_price (elemPriceText e)

/-- First-some combinator, Python's `x if x is not None else y` shape. -/
def oOr {α : Type} : Option α → Option α → Option α
  | some x, _ => some x
  | none, b => b

/-- Boolean prefix test on character lists. -/
def isPrefixL : List Char → List Char → Bool
  | [], _ => true
  | _ :: _, [] => false
  | a :: as, b :: bs => a == b && isPrefixL as bs

/-- Python's substring operator `needle in hay` on character lists. -/
def containsSub (hay needle : List Char) : Bool :=
  match hay with
  | [] => needle.isEmpty
  | _ :: t => isPrefixL needle hay || containsSub t needle

/-- Value of one hex digit, if any. -/
def hexVal? (c : Char) : Option ℕ :=
  if decide ('0' ≤ c ∧ c ≤ '9') then some (c.toNat - 48)
  else if decide ('a' ≤ c ∧ c ≤ 'f') then some (c.toNat - 87)
  else if decide ('A' ≤ c ∧ c ≤ 'F') then some (c.toNat - 55)
  else none

/-- Models `urllib.parse.unquote_plus` byte-wise (faithful for the ASCII
percent-escapes this program meets): `+` becomes a space, a valid `%HH`
escape becomes the character with that code, malformed escapes stay. -/
def unquotePlusL : List Char → List Char
  | [] => []
  | '+' :: r => ' ' :: unquotePlusL r
  | '%' :: a :: b :: r =>
    match hexVal? a, hexVal? b with
    | some x, some y => Char.ofNat (16 * x + y) :: unquotePlusL r
    | _, _ => '%' :: unquotePlusL (a :: b :: r)
  | '%' :: r => '%' :: unquotePlusL r
  | c :: r => c :: unquotePlusL r

/-- String form of `unquote_plus`. -/
def unquote_plus (s : String) : String :=
  String.mk (unquotePlusL s.toList)

/-- Uppercase hex digit of a value below 16. -/
def hexDigitU (n : ℕ) : Char :=
  if n < 10 then Char.ofNat (48 + n) else Char.ofNat (55 + n)

/-- UTF-8 bytes of one character. -/
def utf8Bytes (c : Char) : List ℕ :=
  let n := c.toNat
  if n < 128 then [n]
  else if n < 2048 then [192 + n / 64, 128 + n % 64]
  else if n < 65536 then [224 + n / 4096, 128 + (n / 64) % 64, 128 + n % 64]
  else [240 + n / 262144, 128 + (n / 4096) % 64, 128 + (n / 64) % 64, 128 + n % 64]

/-- Characters `urllib.parse.quote_plus` leaves unescaped (beyond space). -/
def quoteSafe (c : Char) : Bool :=
  c.isAlphanum || c == '_' || c == '.' || c == '-' || c == '~'

/-- Models `urllib.parse.quote_plus`: spaces to `+`, safe characters kept,
everything else percent-encoded per UTF-8 byte. -/
def quote_plus (s : String) : String :=
  String.mk (s.toList.flatMap fun c =>
    if c == ' ' then ['+']
    else if quoteSafe c then [c]
    else (utf8Bytes c).flatMap fun b => ['%', hexDigitU (b / 16), hexDigitU (b % 16)])

/-- Models `str.format` with a single positional argument, as the store
search templates use it: the first `{}` is replaced. -/
def pyFormat1L (arg : List Char) : List Char → List Char
  | [] => []
  | '{' :: '}' :: r => arg ++ r
  | c :: r => c :: pyFormat1L arg r

/-- String form of single-argument `format`. -/
def pyFormat1 (t arg : String) : String :=
  String.mk (pyFormat1L arg.toList t.toList)

/-- Split a character list on a separator; like Python `str.split`, the
result is never empty and empty fields are kept. -/
def splitChar (sep : Char) : List Char → List (List Char)
  | [] => [[]]
  | c :: r =>
    let rest := splitChar sep r
    if c = sep then [] :: rest
    else
      match rest with
      | h :: t => (c :: h) :: t
      | [] => [[c]]

/-- Models `urllib.parse.parse_qsl` with default options: split the query
on `&`, keep only fields with an `=` and a nonempty value, and URL-decode
keys and values. -/
def parse_qsl (q : List Char) : List (String × String) :=
  (splitChar '&' q).filterMap fun field =>
    let k := field.takeWhile fun c => c != '='
    let rest := field.dropWhile fun c => c != '='
    match rest with
    | [] => none
    | _ :: v =>
      if v = [] then none
      else some (String.mk (unquotePlusL k), String.mk (unquotePlusL v))

/-- Query component of a URL, as `urlparse` finds it: the part after the
first `?` that precedes any `#`. -/
def queryOf (base : String) : List Char :=
  let pre := base.toList.takeWhile fun c => c != '#'
  match pre.dropWhile fun c => c != '?' with
  | [] => []
  | _ :: q => q

/-- Query keys `find_product_link` tries, in priority order. -/
def searchKeys : List String := ["q", "term", "keywords", "s"]

/-- Search term recovered from the base URL: first key of `searchKeys`
present in the parsed query, first value for it. -/
def searchTermOf (base : String) : Option String :=
  let qs := parse_qsl (queryOf base)
  searchKeys.findSome? fun k => (qs.find? fun p => p.1 == k).map Prod.snd

/-- The function `normalize` inside `find_product_link`: lower-case, then
keep only `[a-z0-9]`. -/
def normalizeStr (s : String) : List Char :=
  (s.toList.map Char.toLower).filter fun c =>
    decide (97 ≤ c.toNat ∧ c.toNat ≤ 122) || decide (48 ≤ c.toNat ∧ c.toNat ≤ 57)

/-- Normalized, URL-decoded search term of the base URL, exactly as the
source computes it (`parse_qs` already decodes; the source decodes once
more with `unquote_plus`). -/
def searchTermNorm (base : String) : List Char :=
  normalizeStr (unquote_plus ((searchTermOf base).getD ""))

/-- Scheme characters per RFC 3986 / `urllib`. -/
def isSchemeChar (c : Char) : Bool :=
  c.isAlphanum || c == '+' || c == '-' || c == '.'

/-- Whether a URL starts with a scheme. -/
def hasScheme (u : List Char) : Bool :=
  match u.dropWhile fun c => c != ':' with
  | [] => false
  | _ =>
    let pre := u.takeWhile fun c => c != ':'
    !pre.isEmpty && pre.all isSchemeChar && (pre.headD ' ').isAlpha

/-- Netloc and remainder of the part following `scheme:`. -/
def netlocAndRest (u : List Char) : List Char × List Char :=
  match u with
  | '/' :: '/' :: r =>
    (r.takeWhile fun c => c != '/' && c != '?' && c != '#',
     r.dropWhile fun c => c != '/' && c != '?' && c != '#')
  | _ => ([], u)

/-- Split a base URL into scheme, netloc and the trailing part. -/
def splitBase (u : List Char) : List Char × List Char × List Char :=
  if hasScheme u then
    let sch := u.takeWhile fun c => c != ':'
    let (nl, rest) := netlocAndRest ((u.dropWhile fun c => c != ':').drop 1)
    (sch, nl, rest)
  else
    let (nl, rest) := netlocAndRest u
    ([], nl, rest)

/-- Reassemble scheme, netloc and path. -/
def assembleURL (sch nl p : List Char) : List Char :=
  (if sch.isEmpty then [] else sch ++ [':']) ++
    (if nl.isEmpty then [] else ['/', '/'] ++ nl) ++ p

/-- Directory part of a path: everything up to and including the last `/`. -/
def dirOf (p : List Char) : List Char :=
  (p.reverse.dropWhile fun c => c != '/').reverse

/-- Models `urllib.parse.urljoin` for the reference shapes this program
produces: absolute references, network-path (`//`), absolute-path (`/`)
and plain relative references against the base's directory (dot-segment
normalization is not needed by any claim and is omitted). -/
def urljoin (base url : String) : String :=
  let b := base.toList
  let u := url.toList
  if u.isEmpty then base
  else if hasScheme u then url
  else
    match splitBase b with
    | (sch, nl, rest) =>
      match u with
      | '/' :: '/' :: _ =>
        String.mk ((if sch.isEmpty then [] else sch ++ [':']) ++ u)
      | '/' :: _ => String.mk (assembleURL sch nl u)
      | _ =>
        let p := rest.takeWhile fun c => c != '?' && c != '#'
        let dir := if (dirOf p).isEmpty && !nl.isEmpty then ['/'] else dirOf p
        String.mk (assembleURL sch nl (dir ++ u))

/-- Combined signal of an anchor, `f"{text} {title} {href}"`. -/
def combinedOf (a : Anchor) : String :=
  a.text ++ " " ++ a.title ++ " " ++ a.href

/-- Normalized combined signal. -/
def normComb (a : Anchor) : List Char :=
  normalizeStr (combinedOf a)

/-- Whether an anchor's href carries a product-indicating fragment. -/
def isCandidate (a : Anchor) : Bool :=
  ["product", "products", "item", "shop"].any fun k =>
    containsSub (a.href.toList.map Char.toLower) k.toList

/-- Loop of `find_product_link` (src/fetch_prices.py:219-238): walk the
anchors, return the first candidate whose normalized signal contains the
nonempty normalized term, else the first candidate collected, else the
first anchor of the page, else nothing. -/
def findLinkGo (base : String) (t : List Char) (page : List Anchor) :
    List Anchor → List Anchor → Option String
  | [], cands =>
    match cands with
    | c :: _ => some (urljoin base c.href)
    | [] =>
      match page with
      | f :: _ => some (urljoin base f.href)
      | [] => none
  | a :: rest, cands =>
    if isCandidate a then
      if !t.isEmpty && containsSub (normComb a) t then
        some (urljoin base a.href)
      else findLinkGo base t page rest (cands ++ [a])
    else findLinkGo base t page rest cands

/-- Embeds `find_product_link` (src/fetch_prices.py:199-238). -/
def find_product_link (soup : Doc) (base : String) : Option String :=
  findLinkGo base (searchTermNorm base) soup.anchors soup.anchors []

/-- A store profile, one entry of `STORES`. -/
structure Store where
  name : String
  search : String
  list_selectors : List String
  detail_selectors : List String

/-- The configured store list of src/fetch_prices.py:32-170, in order. -/
def STORES : List Store :=
  [⟨"Japan Centre", "https://www.japancentre.com/en/search?term={}",
    [".price", ".product__price", "[data-test=\x27product-price\x27]"],
    ["meta[itemprop=\x27price\x27]", "meta[property=\x27product:price:amount\x27]",
     ".price", ".product__price"]⟩,
   ⟨"H Mart UK", "https://hmart.co.uk/shop/gb/search?controller=search&s={}",
    [".price", "[itemprop=\x27price\x27]"],
    ["[itemprop=\x27price\x27]", "meta[property=\x27product:price:amount\x27]", ".price"]⟩,
   ⟨"Sous Chef", "https://www.souschef.co.uk/search?q={}",
    [".price-item--regular", ".price", "[data-product-price]"],
    ["meta[itemprop=\x27price\x27]", "meta[property=\x27product:price:amount\x27]", ".price"]⟩,
   ⟨"Yutaka Shop", "https://shop.yutaka.london/search?q={}",
    [".price", ".price__regular .price-item--regular"],
    ["meta[itemprop=\x27price\x27]", "meta[property=\x27product:price:amount\x27]", ".price"]⟩,
   ⟨"Wibrix", "https://wibrix.co.uk/?s={}&post_type=product",
    [".woocommerce-Price-amount", ".price .amount"],
    ["meta[itemprop=\x27price\x27]", ".woocommerce-Price-amount", ".price .amount"]⟩,
   ⟨"Oriental Mart", "https://www.orientalmart.co.uk/search?q={}",
    [".price", ".product-price", ".woocommerce-Price-amount"],
    ["meta[itemprop=\x27price\x27]", ".price", ".woocommerce-Price-amount"]⟩,
   ⟨"Wai Yee Hong", "https://www.waiyeehong.com/search?keywords={}",
    [".price", ".product-price"],
    ["meta[itemprop=\x27price\x27]", ".price"]⟩,
   ⟨"WaNaHong", "https://www.wanahong.co.uk/?s={}&post_type=product",
    [".woocommerce-Price-amount", ".price .amount"],
    ["meta[itemprop=\x27price\x27]", ".woocommerce-Price-amount", ".price .amount"]⟩,
   ⟨"Tradewinds Oriental", "https://tradewindsorientalshop.co.uk/?s={}&post_type=product",
    [".woocommerce-Price-amount", ".price .amount"],
    ["meta[itemprop=\x27price\x27]", ".woocommerce-Price-amount", ".price .amount"]⟩,
   ⟨"Korea Foods", "https://www.koreafoods.co.uk/?s={}&post_type=product",
    [".woocommerce-Price-amount", ".price .amount"],
    ["meta[itemprop=\x27price\x27]", ".woocommerce-Price-amount", ".price .amount"]⟩,
   ⟨"Korean Supermarket", "https://www.koreansupermarket.co.uk/?s={}&post_type=product",
    [".woocommerce-Price-amount", ".price .amount"],
    ["meta[itemprop=\x27price\x27]", ".woocommerce-Price-amount", ".price .amount"]⟩]

/-- Column constants of the source. -/
def NAME_COL : ℕ := 5

/-- Column the winning store name is written to. -/
def STORE_COL : ℕ := 12

/-- Column the product URL is written to. -/
def URL_COL : ℕ := 13

/-- Column the price is written to. -/
def PRICE_COL : ℕ := 14

/-- A value written to a cell: a string, a number, or Python `None`. -/
inductive CellVal where
  | str (s : String)
  | num (q : ℚ)
  | pyNone
deriving DecidableEq

/-- Observable events of a run. -/
inductive SEvent where
  | query (store : String)
  | create
  | createFail
  | quit
  | write (row col : ℕ) (v : CellVal)
deriving DecidableEq

/-- Exceptions that can escape the scan loop. -/
inductive PyErr where
  | index
  | write
deriving DecidableEq

/-- Driver-related state threaded through `fetch_from_store`: the live
Selenium handle, if any, and how many creation attempts happened. -/
structure FetchSt where
  driver : Option Unit
  attempts : ℕ
deriving DecidableEq

/-- Environment supplying every effect of the program. -/
structure Env where
  get : String → Option (Doc × String)
  nav : String → Option (Doc × String)
  createOK : ℕ → Bool
  writeOK : ℕ → Bool

/-- The search URL for an item at a store, `store["search"].format(quote_plus(name))`. -/
def searchURL (nm : String) (store : Store) : String :=
  pyFormat1 store.search (quote_plus nm)

/-- Direct (requests) stage of `fetch_from_store`
(src/fetch_prices.py:259-277): fetch the search page, resolve a product
link, prefer a detail-page price, else a list price from the original
search document; any raised exception yields nothing. -/
def directStage (env : Env) (nm : String) (store : Store) :
    Option (String × String × ℚ) :=
  match env.get (searchURL nm store) with
  | none => none
  | some (soup, respURL) =>
    let product_url := find_product_link soup respURL
    let detailHit : Option (String × String × ℚ) :=
      match product_url with
      | some purl =>
        if purl != "" then
          match env.get purl with
          | none => none
          | some (dsoup, durl) =>
            match extract_price_from_soup dsoup store.detail_selectors with
            | some p => some (store.name, durl, p)
            | none => none
        else none
      | none => none
    match detailHit with
    | some r => some r
    | none =>
      match extract_price_from_soup soup store.list_selectors with
      | some p =>
        some (store.name,
          (match product_url with
           | some u => if u = "" then respURL else u
           | none => respURL), p)
      | none => none

/-- Navigation part of the selenium stage (src/fetch_prices.py:287-298),
once a driver exists.  Note the source rebinds `soup` to the detail page
before the list-selector extraction. -/
def renderedNav (env : Env) (nm : String) (store : Store) :
    Option (String × String × ℚ) :=
  match env.nav (searchURL nm store) with
  | none => none
  | some (soup1, cur1) =>
    match find_product_link soup1 cur1 with
    | some purl =>
      if purl != "" then
        match env.nav purl with
        | none => none
        | some (soup2, cur2) =>
          match extract_price_from_soup soup2 store.detail_selectors with
          | some p => some (store.name, cur2, p)
          | none =>
            match extract_price_from_soup soup2 store.list_selectors with
            | some p => some (store.name, cur2, p)
            | none => none
      else
        match extract_price_from_soup soup1 store.list_selectors with
        | some p => some (store.name, cur1, p)
        | none => none
    | none =>
      match extract_price_from_soup soup1 store.list_selectors with
      | some p => some (store.name, cur1, p)
      | none => none

/-- Selenium stage of `fetch_from_store` (src/fetch_prices.py:279-300):
create the driver lazily when none exists (a failing creation raises and
is caught, leaving no driver), then navigate. -/
def renderedStage (env : Env) (nm : String) (store : Store) (st : FetchSt) :
    Option (String × String × ℚ) × FetchSt × List SEvent :=
  match st.driver with
  | some _ => (renderedNav env nm store, st, [])
  | none =>
    if env.createOK st.attempts then
      (renderedNav env nm store, ⟨some (), st.attempts + 1⟩, [SEvent.create])
    else
      (none, ⟨none, st.attempts + 1⟩, [SEvent.createFail])

/-- Pack a stage result into the quadruple shape the source returns. -/
def packQuote : Option (String × String × ℚ) →
    Option String × Option String × Option ℚ
  | some (n, u, p) => (some n, some u, some p)
  | none => (none, none, none)

/-- Embeds `fetch_from_store` (src/fetch_prices.py:252-302): requests
first, selenium fallback, empty quote when both stages miss.  Emits a
`query` event so the scanner's store-iteration order is observable. -/
def fetch_from_store (env : Env) (nm : String) (store : Store) (st : FetchSt) :
    (Option String × Option String × Option ℚ) × FetchSt × List SEvent :=
  match directStage env nm store with
  | some r => (packQuote (some r), st, [SEvent.query store.name])
  | none =>
    match renderedStage env nm store st with
    | (r, st2, ev) => (packQuote r, st2, SEvent.query store.name :: ev)

/-- Scanner state: driver state plus the count of write attempts. -/
structure MState where
  fs : FetchSt
  writes : ℕ
deriving DecidableEq

/-- Models `ws.update_cell`: the n-th write attempt either succeeds and is
recorded, or raises. -/
def updateCell (env : Env) (st : MState) (row col : ℕ) (v : CellVal) :
    Option MState × List SEvent :=
  if env.writeOK st.writes then
    (some ⟨st.fs, st.writes + 1⟩, [SEvent.write row col v])
  else (none, [])

/-- A sequence of `update_cell` calls; the first raise aborts the rest. -/
def writeCells (env : Env) : List (ℕ × ℕ × CellVal) → MState →
    Except PyErr Unit × MState × List SEvent
  | [], st => (.ok (), st, [])
  | (r, c, v) :: rest, st =>
    match updateCell env st r c v with
    | (none, ev) => (.error .write, st, ev)
    | (some st2, ev) =>
      match writeCells env rest st2 with
      | (res, st3, ev2) => (res, st3, ev ++ ev2)

/-- The success test of the scanner, `store_name and price is not None and
price > 0` with Python truthiness on the name. -/
def quoteOK (sn : Option String) (p : Option ℚ) : Bool :=
  (match sn with | some n => n != "" | none => false) &&
  (match p with | some q => decide (0 < q) | none => false)

/-- Cell value for the URL field of a winning quote. -/
def cellOfUrl : Option String → CellVal
  | some u => .str u
  | none => .pyNone

/-- Inner store loop of `main` (src/fetch_prices.py:315-323): try the
stores in order; on the first successful quote write its three fields and
stop; report whether a quote was written. -/
def scanStores (env : Env) (idx : ℕ) (nm : String) :
    List Store → MState → Except PyErr (Option Unit) × MState × List SEvent
  | [], st => (.ok none, st, [])
  | store :: rest, st =>
    match fetch_from_store env nm store st.fs with
    | ((sn, url, price), fs2, ev) =>
      let st1 : MState := ⟨fs2, st.writes⟩
      if quoteOK sn price then
        match writeCells env
            [(idx, STORE_COL, .str (sn.getD "")),
             (idx, URL_COL, cellOfUrl url),
             (idx, PRICE_COL, .num (price.getD 0))] st1 with
        | (.ok _, st2, ev2) => (.ok (some ()), st2, ev ++ ev2)
        | (.error e, st2, ev2) => (.error e, st2, ev ++ ev2)
      else
        match scanStores env idx nm rest st1 with
        | (r, st2, ev2) => (r, st2, ev ++ ev2)

/-- One row of the outer loop of `main` (src/fetch_prices.py:310-328):
unguarded positional read of the name cell, skip of blank names, store
scan, and the miss path writing the sentinel and clearing store/URL. -/
def processRow (env : Env) (idx : ℕ) (row : List String) (st : MState) :
    Except PyErr Unit × MState × List SEvent :=
  match row.get? (NAME_COL - 1) with
  | none => (.error .index, st, [])
  | some cell =>
    let nm := pyStrip cell
    if nm = "" then (.ok (), st, [])
    else
      match scanStores env idx nm STORES st with
      | (.error e, st2, ev) => (.error e, st2, ev)
      | (.ok (some _), st2, ev) => (.ok (), st2, ev)
      | (.ok none, st2, ev) =>
        match writeCells env
            [(idx, PRICE_COL, .str "N/A"),
             (idx, STORE_COL, .str ""),
             (idx, URL_COL, .str "")] st2 with
        | (res, st3, ev2) =>
          (match res with | .ok _ => .ok () | .error e => .error e, st3, ev ++ ev2)

/-- The row loop of `main`, propagating the first raised exception. -/
def mainLoop (env : Env) : List (List String) → ℕ → MState →
    Except PyErr Unit × MState × List SEvent
  | [], _, st => (.ok (), st, [])
  | row :: rest, idx, st =>
    match processRow env idx row st with
    | (.error e, st2, ev) => (.error e, st2, ev)
    | (.ok _, st2, ev) =>
      match mainLoop env rest (idx + 1) st2 with
      | (r, st3, ev2) => (r, st3, ev ++ ev2)

/-- Embeds `main` (src/fetch_prices.py:305-331): skip the header row,
start numbering at 2 with no driver, and on every exit path quit the
driver in the `finally` block iff one exists. -/
def main (env : Env) (all_rows : List (List String)) :
    Except PyErr Unit × List SEvent :=
  match mainLoop env (all_rows.drop 1) 2 ⟨⟨none, 0⟩, 0⟩ with
  | (r, st, ev) =>
    (r, ev ++ (match st.fs.driver with | some _ => [SEvent.quit] | none => []))

/-- Count of one event in a trace. -/
def countEv (e : SEvent) : List SEvent → ℕ
  | [] => 0
  | x :: l => (if x = e then 1 else 0) + countEv e l

/-- Driver-lifecycle invariant of a code fragment: it never quits the
driver, it never creates one when one is live, and starting with no driver
it either still has none and created none, or has one and created exactly
one. -/
def DriverInv (d d2 : Option Unit) (ev : List SEvent) : Prop :=
  countEv .quit ev = 0 ∧
  (d = some () → d2 = some () ∧ countEv .create ev = 0 ∧ countEv .createFail ev = 0) ∧
  (d = none → (d2 = none ∧ countEv .create ev = 0) ∨ (d2 = some () ∧ countEv .create ev = 1))

/-- Document whose selector `.b` alone matches, holding text `£3.50`. -/
def exDocB : Doc :=
  ⟨[], fun s => if s = ".b" then some ⟨none, ["£3.50"]⟩ else none⟩

/-- Document whose selector `.c` matches an element with `content="4.20"`
and differing visible text. -/
def exDocC : Doc :=
  ⟨[], fun s => if s = ".c" then some ⟨some "4.20", ["£9.99"]⟩ else none⟩

/-- Document whose selector `.e` matches an element with an empty `content`
attribute and visible text `£2.00`. -/
def exDocE : Doc :=
  ⟨[], fun s => if s = ".e" then some ⟨some "", ["£2.00"]⟩ else none⟩

/-- Document whose selector `.f` matches an element with an unparseable
nonempty `content` attribute and parseable visible text. -/
def exDocF : Doc :=
  ⟨[], fun s => if s = ".f" then some ⟨some "x", ["£2.00"]⟩ else none⟩

/-- Store used by the concrete lookup scenarios. -/
def c1Store : Store := ⟨"S", "http://s/search?q={}", [".lp"], [".dp"]⟩

/-- Search-results page: one product anchor matching the query, and a
list-selector price of £3.50. -/
def c1SearchDoc : Doc :=
  ⟨[⟨"/product/x", "x", ""⟩],
   fun s => if s = ".lp" then some ⟨none, ["£3.50"]⟩ else none⟩

/-- Detail page with no extractable price at all. -/
def c1DetailDoc : Doc := ⟨[], fun _ => none⟩

/-- Environment for the rendered-stage scenario: direct requests raise,
rendered navigation serves the search page and the blank detail page. -/
def c1Env : Env :=
  { get := fun _ => none,
    nav := fun u =>
      if u = "http://s/search?q=x" then some (c1SearchDoc, "http://s/search?q=x")
      else if u = "http://s/product/x" then some (c1DetailDoc, "http://s/product/x")
      else none,
    createOK := fun _ => true, writeOK := fun _ => true }

/-- Detail page whose list selector (not its detail selector) holds £4.00. -/
def c1bDetailDoc : Doc :=
  ⟨[], fun s => if s = ".lp" then some ⟨none, ["£4.00"]⟩ else none⟩

/-- Like `c1Env` but the detail page carries the list-selector price. -/
def c1bEnv : Env :=
  { get := fun _ => none,
    nav := fun u =>
      if u = "http://s/search?q=x" then some (c1SearchDoc, "http://s/search?q=x")
      else if u = "http://s/product/x" then some (c1bDetailDoc, "http://s/product/x")
      else none,
    createOK := fun _ => true, writeOK := fun _ => true }

/-- Page with no anchors and a `.price` element of £5.00. -/
def w5Doc : Doc :=
  ⟨[], fun s => if s = ".price" then some ⟨none, ["£5.00"]⟩ else none⟩

/-- Environment whose direct fetch always serves `w5Doc`. -/
def w5Env : Env :=
  { get := fun u => some (w5Doc, u), nav := fun _ => none,
    createOK := fun _ => false, writeOK := fun _ => true }

/-- First store of the early-exit scenario. -/
def w5Store : Store := ⟨"A", "http://a/?q={}", [".price"], [".dp"]⟩

/-- Second store of the early-exit scenario, never to be queried. -/
def w5StoreB : Store := ⟨"B", "http://b/?q={}", [".price"], [".dp"]⟩

/-- Environment where every network call raises and driver creation fails. -/
def c7Env : Env :=
  { get := fun _ => none, nav := fun _ => none,
    createOK := fun _ => false, writeOK := fun _ => true }

/-- Environment where every network call raises and driver creation fails
(independent copy for the index-bound scenario). -/
def w10Env : Env :=
  { get := fun _ => none, nav := fun _ => none,
    createOK := fun _ => false, writeOK := fun _ => true }

/-- Environment where every network call raises (lookup-shape scenario). -/
def w6Env : Env :=
  { get := fun _ => none, nav := fun _ => none,
    createOK := fun _ => false, writeOK := fun _ => true }

/-- Page on which every selector matches a `content="5"` element, so every
configured store succeeds at the direct stage. -/
def w8Doc : Doc := ⟨[], fun _ => some ⟨some "5", []⟩⟩

/-- Environment whose direct fetch always serves `w8Doc`. -/
def w8Env : Env :=
  { get := fun u => some (w8Doc, u), nav := fun _ => none,
    createOK := fun _ => true, writeOK := fun _ => true }

/-- Sheet rows for the lifecycle scenario: header plus one named item. -/
def w8Rows : List (List String) := [["h"], ["", "", "", "", "x"]]

/-! Theorems. -/

/-- Every character surviving `parse_price`'s cleaning is a digit or dot. -/
theorem cleanedOf_chars (s : String) :
    ∀ c ∈ cleanedOf s, (c.isDigit || c == '.') = true := by
  intro c hc
  simp only [cleanedOf, List.mem_filter] at hc
  obtain ⟨⟨_, h1⟩, h2⟩ := hc
  simp only [Bool.or_eq_true] at h1 ⊢
  rcases h1 with (h | h) | h
  · exact Or.inl h
  · exact Or.inr h
  · rw [beq_iff_eq] at h
    subst h
    simp at h2

/-- The conversion fails exactly on non-numeric remainders. -/
theorem parse_price_eq_none_iff (s : String) :
    parse_price s = none ↔ ¬ PyNumeric (cleanedOf s) := by
  have hall : ((cleanedOf s).all fun c => c.isDigit || c == '.') = true :=
    List.all_eq_true.mpr (cleanedOf_chars s)
  unfold parse_price pyFloat?
  by_cases hP : PyNumeric (cleanedOf s)
  · obtain ⟨h1, h2⟩ := hP
    rw [if_pos (by simp [hall, h1, h2])]
    simp only [reduceCtorEq, false_iff, not_not]
    exact ⟨h1, h2⟩
  · rw [if_neg ?_]
    · simp [hP]
    · intro hcond
      simp only [Bool.and_eq_true, decide_eq_true_eq] at hcond
      exact hP ⟨hcond.1.2, hcond.2⟩

/-- C2: `parse_price` removes every character that is not a digit, dot or
comma, then removes the commas, and converts the remainder, returning the
exact decimal value when CPython `float` accepts it and `none` exactly
when the remainder is empty or non-numeric; the function is total, so no
exception escapes.  Includes the spec's three examples. -/
theorem C2_parse_price_contract :
    parse_price "£12,345.67 each" = some (1234567 / 100 : ℚ)
    ∧ parse_price "N/A" = none
    ∧ parse_price "" = none
    ∧ ∀ s : String,
        parse_price s = none ↔ (cleanedOf s = [] ∨ ¬ PyNumeric (cleanedOf s)) := by
  refine ⟨by decide, by decide, by decide, fun s => ?_⟩
  rw [parse_price_eq_none_iff]
  constructor
  · exact Or.inr
  · rintro (hnil | h)
    · rintro ⟨_, hany⟩
      rw [hnil] at hany
      simp at hany
    · exact h

/-- The extractor equals the first-some map over the selector list. -/
theorem extract_eq_findSome (doc : Doc) (sels : List String) :
    extract_price_from_soup doc sels = sels.findSome? (selPrice doc) := by
  induction sels with
  | nil => rfl
  | cons s rest ih =>
    cases h : doc.sel s with
    | none => simp [extract_price_from_soup, h, List.findSome?, selPrice, ih]
    | some e =>
      cases hp : parse_price (elemPriceText e) <;>
        simp [extract_price_from_soup, h, hp, List.findSome?, selPrice, ih]

/-- C3: the extractor walks the selectors strictly in order, uses for each
the first matching element (`select_one`, abstracted in `Doc.sel`),
prefers a present nonempty `content` attribute over the
whitespace-collapsed descendant text, feeds the text to the parser, and
returns the first present price without scanning further; absent if no
selector yields one.  Includes the spec's two examples. -/
theorem C3_selector_extractor :
    (∀ (doc : Doc) (sels : List String),
      extract_price_from_soup doc sels = sels.findSome? (selPrice doc))
    ∧ (∀ (e : Element) (t : String),
        e.contentAttr = some t → t ≠ "" → elemPriceText e = t)
    ∧ extract_price_from_soup exDocB [".a", ".b"] = some (7 / 2 : ℚ)
    ∧ extract_price_from_soup exDocC [".c"] = some (21 / 5 : ℚ) := by
  refine ⟨extract_eq_findSome, ?_, by decide, by decide⟩
  intro e t h ht
  simp [elemPriceText, h, ht]

/-- Witness for C3 at a concrete element: the `content` attribute wins. -/
theorem C3_selector_extractor_witness :
    elemPriceText ⟨some "4.20", ["£9.99"]⟩ = "4.20" :=
  C3_selector_extractor.2.1 ⟨some "4.20", ["£9.99"]⟩ "4.20" rfl (by decide)

/-- C9: an empty `content` attribute is falsy, so the rendered text is
used instead; a nonempty `content` attribute whose text yields no price
makes the extractor move to the next selector without consulting the
element's rendered text.  Includes both concrete scenarios. -/
theorem C9_content_attribute_edge :
    (∀ e : Element, e.contentAttr = some "" →
      elemPriceText e = String.intercalate " " e.strippedStrings)
    ∧ (∀ (doc : Doc) (s : String) (rest : List String) (e : Element) (t : String),
        doc.sel s = some e → e.contentAttr = some t → t ≠ "" →
        parse_price t = none →
        extract_price_from_soup doc (s :: rest) = extract_price_from_soup doc rest)
    ∧ extract_price_from_soup exDocE [".e"] = some (2 : ℚ)
    ∧ extract_price_from_soup exDocF [".f"] = none := by
  refine ⟨?_, ?_, by decide, by decide⟩
  · intro e h
    simp [elemPriceText, h]
  · intro doc s rest e t h1 h2 h3 h4
    have ht : elemPriceText e = t := by simp [elemPriceText, h2, h3]
    simp [extract_price_from_soup, h1, ht, h4]

/-- Witness for C9 at a concrete element with an empty content attribute. -/
theorem C9_content_attribute_edge_witness :
    elemPriceText ⟨some "", ["£2.00"]⟩ = String.intercalate " " ["£2.00"] :=
  C9_content_attribute_edge.1 ⟨some "", ["£2.00"]⟩ rfl

/-- Map distributes over the first-some combinator. -/
theorem map_oOr {α β : Type} (f : α → β) (x y : Option α) :
    (oOr x y).map f = oOr (x.map f) (y.map f) := by
  cases x <;> rfl

/-- Every string contains the empty string. -/
theorem containsSub_nil (h : List Char) : containsSub h [] = true := by
  cases h <;> simp [containsSub, isPrefixL]

/-- A search with an always-true predicate returns the head. -/
theorem find?_of_forall_true {α : Type} (l : List α) (p : α → Bool)
    (hp : ∀ a, p a = true) : l.find? p = l.head? := by
  cases l with
  | nil => rfl
  | cons a t => simp [List.find?_cons, hp]

/-- Loop characterization of `find_product_link`: first matching candidate
(under the source's guard), else first collected candidate, else first
anchor of the page, else nothing. -/
theorem findLinkGo_spec (base : String) (t : List Char) (page : List Anchor) :
    ∀ rest cands : List Anchor,
      findLinkGo base t page rest cands =
        oOr (((rest.filter isCandidate).find? fun a =>
            !t.isEmpty && containsSub (normComb a) t).map fun a => urljoin base a.href)
          (oOr (((cands ++ rest.filter isCandidate).head?).map fun a => urljoin base a.href)
            (page.head?.map fun a => urljoin base a.href)) := by
  intro rest
  induction rest with
  | nil =>
    intro cands
    cases cands with
    | nil => cases page <;> simp [findLinkGo, oOr]
    | cons c cs => simp [findLinkGo, oOr]
  | cons a rest ih =>
    intro cands
    cases hca : isCandidate a with
    | false => simp [findLinkGo, hca, List.filter_cons, ih cands]
    | true =>
      cases hm : (!t.isEmpty && containsSub (normComb a) t) with
      | true => simp [findLinkGo, hca, hm, List.filter_cons, List.find?_cons, oOr]
      | false =>
        have hstep : findLinkGo base t page (a :: rest) cands =
            findLinkGo base t page rest (cands ++ [a]) := by
          simp [findLinkGo, hca, hm]
        rw [hstep, ih (cands ++ [a])]
        simp only [List.filter_cons, hca, if_true, List.find?_cons, hm, cond_false]
        rw [List.append_cons cands a (rest.filter isCandidate)]

/-- C4: the link matcher returns, resolved against the base URL, the first
candidate anchor whose normalized combined text, title and href contains
the normalized decoded query term, else the first candidate in document
order, else the first anchor of the page; it is absent exactly when the
page has no (href-bearing) anchors. -/
theorem C4_link_matcher (soup : Doc) (base : String) :
    (find_product_link soup base =
      (oOr ((soup.anchors.filter isCandidate).find? fun a =>
          containsSub (normComb a) (searchTermNorm base))
        (oOr (soup.anchors.filter isCandidate).head? soup.anchors.head?)).map
        fun a => urljoin base a.href)
    ∧ (find_product_link soup base = none ↔ soup.anchors = []) := by
  have h1 : find_product_link soup base =
      (oOr ((soup.anchors.filter isCandidate).find? fun a =>
          containsSub (normComb a) (searchTermNorm base))
        (oOr (soup.anchors.filter isCandidate).head? soup.anchors.head?)).map
        fun a => urljoin base a.href := by
    rw [find_product_link, findLinkGo_spec]
    generalize searchTermNorm base = t
    cases t with
    | nil =>
      have hfind : ((soup.anchors.filter isCandidate).find? fun a =>
          !(List.nil (α := Char)).isEmpty && containsSub (normComb a) []) = none := by
        rw [List.find?_eq_none]
        intro a _
        simp
      have hfind2 : ((soup.anchors.filter isCandidate).find? fun a =>
          containsSub (normComb a) []) = (soup.anchors.filter isCandidate).head? :=
        find?_of_forall_true _ _ fun a => containsSub_nil _
      rw [hfind, hfind2]
      simp only [List.nil_append, Option.map_none']
      cases (soup.anchors.filter isCandidate).head? <;> simp [oOr]
    | cons c cs =>
      have hpe : (fun a => !(c :: cs).isEmpty && containsSub (normComb a) (c :: cs)) =
          fun a => containsSub (normComb a) (c :: cs) := by
        funext a
        simp
      rw [hpe]
      simp only [map_oOr, List.nil_append]
  refine ⟨h1, ?_⟩
  rw [h1]
  cases hA : soup.anchors with
  | nil => simp [oOr]
  | cons x xs =>
    have hne : ∀ A B : Option Anchor,
        (oOr A (oOr B (some x))).map (fun a => urljoin base a.href) ≠ none := by
      intro A B
      cases A <;> cases B <;> simp [oOr]
    constructor
    · intro h
      rw [List.head?_cons] at h
      exact absurd h (hne _ _)
    · intro h
      exact absurd h (List.cons_ne_nil x xs)

/-- A raised direct search fetch makes the direct stage produce nothing. -/
theorem directStage_none_of_get_none (env : Env) (nm : String) (store : Store)
    (h : env.get (searchURL nm store) = none) : directStage env nm store = none := by
  simp [directStage, h]

/-- C6: `fetch_from_store` never propagates a failure: its quote is either
fully empty or fully populated, a raised direct stage still hands control
to the rendered stage (the result is exactly the rendered stage's), and
the empty quote is returned precisely when both stages produce no price. -/
theorem C6_lookup_soft_failure (env : Env) (nm : String) (store : Store) (st : FetchSt) :
    ((fetch_from_store env nm store st).1 = (none, none, none) ∨
      ∃ n u p, (fetch_from_store env nm store st).1 = (some n, some u, some p))
    ∧ (env.get (searchURL nm store) = none →
        fetch_from_store env nm store st =
          (packQuote (renderedStage env nm store st).1,
           (renderedStage env nm store st).2.1,
           SEvent.query store.name :: (renderedStage env nm store st).2.2))
    ∧ ((fetch_from_store env nm store st).1.2.2 = none ↔
        directStage env nm store = none ∧ (renderedStage env nm store st).1 = none) := by
  refine ⟨?_, ?_, ?_⟩
  · cases hd : directStage env nm store with
    | some r =>
      obtain ⟨n, u, p⟩ := r
      exact Or.inr ⟨n, u, p, by simp [fetch_from_store, hd, packQuote]⟩
    | none =>
      cases hr : (renderedStage env nm store st).1 with
      | some r =>
        obtain ⟨n, u, p⟩ := r
        exact Or.inr ⟨n, u, p, by simp [fetch_from_store, hd, hr, packQuote]⟩
      | none => exact Or.inl (by simp [fetch_from_store, hd, hr, packQuote])
  · intro hget
    simp [fetch_from_store, directStage_none_of_get_none env nm store hget]
  · cases hd : directStage env nm store with
    | some r =>
      obtain ⟨n, u, p⟩ := r
      simp [fetch_from_store, hd, packQuote]
    | none =>
      cases hr : (renderedStage env nm store st).1 with
      | some r =>
        obtain ⟨n, u, p⟩ := r
        simp [fetch_from_store, hd, hr, packQuote]
      | none => simp [fetch_from_store, hd, hr, packQuote]

/-- Witness for C6 at a concrete failing environment: with the direct GET
raising, the lookup result is exactly the rendered stage's. -/
theorem C6_lookup_soft_failure_witness :
    fetch_from_store w6Env "x" c1Store ⟨none, 0⟩ =
      (packQuote (renderedStage w6Env "x" c1Store ⟨none, 0⟩).1,
       (renderedStage w6Env "x" c1Store ⟨none, 0⟩).2.1,
       SEvent.query c1Store.name :: (renderedStage w6Env "x" c1Store ⟨none, 0⟩).2.2) :=
  (C6_lookup_soft_failure w6Env "x" c1Store ⟨none, 0⟩).2.1 rfl

/-- C1 counterexample: concrete run in which the rendered stage resolves a
product link, the detail-page extraction yields no price, the original
rendered search document does carry a list-selector price of £3.50, and
yet the lookup returns no price — because the source rebinds `soup` to the
detail page before the list extraction.  Under the claim the lookup would
return a successful quote with price 7/2. -/
theorem C1_rendered_list_counterexample :
    find_product_link c1SearchDoc "http://s/search?q=x" = some "http://s/product/x"
    ∧ c1Env.nav "http://s/search?q=x" = some (c1SearchDoc, "http://s/search?q=x")
    ∧ c1Env.nav "http://s/product/x" = some (c1DetailDoc, "http://s/product/x")
    ∧ extract_price_from_soup c1DetailDoc c1Store.detail_selectors = none
    ∧ extract_price_from_soup c1SearchDoc c1Store.list_selectors = some (7 / 2 : ℚ)
    ∧ (fetch_from_store c1Env "x" c1Store ⟨some (), 0⟩).1 = (none, none, none) := by
  refine ⟨rfl, rfl, rfl, rfl, by decide, rfl⟩

/-- C1 amended: in the rendered stage, once a product link is resolved and
navigated, a failed detail extraction is followed by the list-selector
extraction against the rendered detail-page document (the source rebinds
`soup`), not the original search document, and a present price from it
yields a successful quote whose URL is the driver's current URL. -/
theorem C1_rendered_list_extraction (env : Env) (nm : String) (store : Store)
    (st : FetchSt) (soup1 soup2 : Doc) (cur1 cur2 purl : String) (p : ℚ)
    (hget : env.get (searchURL nm store) = none)
    (hdrv : st.driver = some ())
    (hnav1 : env.nav (searchURL nm store) = some (soup1, cur1))
    (hlink : find_product_link soup1 cur1 = some purl)
    (hne : purl ≠ "")
    (hnav2 : env.nav purl = some (soup2, cur2))
    (hdetail : extract_price_from_soup soup2 store.detail_selectors = none)
    (hlist : extract_price_from_soup soup2 store.list_selectors = some p) :
    fetch_from_store env nm store st =
      ((some store.name, some cur2, some p), st, [SEvent.query store.name]) := by
  have hd : directStage env nm store = none :=
    directStage_none_of_get_none env nm store hget
  have hv : renderedNav env nm store = some (store.name, cur2, p) := by
    simp [renderedNav, hnav1, hlink, hne, hnav2, hdetail, hlist]
  have hr : renderedStage env nm store st = (some (store.name, cur2, p), st, []) := by
    simp [renderedStage, hdrv, hv]
  simp [fetch_from_store, hd, hr, packQuote]

/-- Witness for the amended C1: concrete rendered run in which the detail
page itself carries the list-selector price £4.00, which is returned with
the detail URL. -/
theorem C1_rendered_list_extraction_witness :
    fetch_from_store c1bEnv "x" c1Store ⟨some (), 0⟩ =
      ((some "S", some "http://s/product/x", some (4 : ℚ)), ⟨some (), 0⟩,
        [SEvent.query "S"]) :=
  C1_rendered_list_extraction c1bEnv "x" c1Store ⟨some (), 0⟩ c1SearchDoc c1bDetailDoc
    "http://s/search?q=x" "http://s/product/x" "http://s/product/x" 4
    rfl rfl rfl rfl (by decide) rfl rfl (by decide)

/-- C5: the scanner stops at the first store whose lookup yields a quote
with a (truthy) store name and a present price strictly greater than zero:
the scan result does not depend on the stores after the winner (they are
never queried), and, when the three writes succeed, exactly the winning
quote's store name, URL and price are written; a quote whose price is
absent or zero does not stop the iteration. -/
theorem C5_scanner_early_exit (env : Env) (idx : ℕ) (nm : String) (s : Store) (st : MState) :
    (∀ (n : String) (url : Option String) (q : ℚ) (fs2 : FetchSt) (ev : List SEvent),
      fetch_from_store env nm s st.fs = ((some n, url, some q), fs2, ev) →
      n ≠ "" → 0 < q →
      (∀ rest rest2 : List Store,
        scanStores env idx nm (s :: rest) st = scanStores env idx nm (s :: rest2) st)
      ∧ (env.writeOK st.writes = true → env.writeOK (st.writes + 1) = true →
          env.writeOK (st.writes + 2) = true →
          ∀ rest : List Store,
            scanStores env idx nm (s :: rest) st =
              (.ok (some ()), ⟨fs2, st.writes + 3⟩,
                ev ++ [SEvent.write idx STORE_COL (.str n),
                       SEvent.write idx URL_COL (cellOfUrl url),
                       SEvent.write idx PRICE_COL (.num q)])))
    ∧ (∀ (sn url : Option String) (p : Option ℚ) (fs2 : FetchSt) (ev : List SEvent),
        fetch_from_store env nm s st.fs = ((sn, url, p), fs2, ev) →
        (p = none ∨ p = some 0) →
        ∀ rest : List Store,
          scanStores env idx nm (s :: rest) st =
            ((scanStores env idx nm rest ⟨fs2, st.writes⟩).1,
             (scanStores env idx nm rest ⟨fs2, st.writes⟩).2.1,
             ev ++ (scanStores env idx nm rest ⟨fs2, st.writes⟩).2.2)) := by
  constructor
  · intro n url q fs2 ev hf hn hq
    have hok : quoteOK (some n) (some q) = true := by
      simp [quoteOK, hn, hq]
    constructor
    · intro rest rest2
      simp only [scanStores, hf, hok, if_true]
    · intro h0 h1 h2 rest
      simp only [scanStores, hf, hok, if_true]
      simp [writeCells, updateCell, h0, h1, h2, Nat.add_assoc]
  · intro sn url p fs2 ev hf hp rest
    have hok : quoteOK sn p = false := by
      rcases hp with rfl | rfl <;> simp [quoteOK]
    simp only [scanStores, hf, hok, Bool.false_eq_true, if_false]

/-- Witness for C5: with a first store that yields £5.00 directly, the
scan over two stores equals the scan that does not contain the second
store at all. -/
theorem C5_scanner_early_exit_witness :
    scanStores w5Env 2 "x" [w5Store, w5StoreB] ⟨⟨none, 0⟩, 0⟩ =
      scanStores w5Env 2 "x" [w5Store] ⟨⟨none, 0⟩, 0⟩ :=
  ((C5_scanner_early_exit w5Env 2 "x" w5Store ⟨⟨none, 0⟩, 0⟩).1 "A"
    (some "http://a/?q=x") 5 ⟨none, 0⟩ [SEvent.query "A"] rfl (by decide) (by decide)).1
    [w5StoreB] []

/-- Three successful writes in a row: final state and emitted events. -/
theorem writeCells_three (env : Env) (st : MState) (a b c : ℕ × ℕ × CellVal)
    (h0 : env.writeOK st.writes = true) (h1 : env.writeOK (st.writes + 1) = true)
    (h2 : env.writeOK (st.writes + 2) = true) :
    writeCells env [a, b, c] st =
      (.ok (), ⟨st.fs, st.writes + 3⟩,
        [SEvent.write a.1 a.2.1 a.2.2, SEvent.write b.1 b.2.1 b.2.2,
         SEvent.write c.1 c.2.1 c.2.2]) := by
  obtain ⟨a1, a2, a3⟩ := a
  obtain ⟨b1, b2, b3⟩ := b
  obtain ⟨c1, c2, c3⟩ := c
  simp [writeCells, updateCell, h0, h1, h2, Nat.add_assoc]

/-- C7: a row whose lookup misses at every configured store gets the
`N/A` sentinel written to its price cell and empty strings written to its
store and URL cells; a row whose name cell is empty or whitespace-only is
skipped entirely, with no write and no store queried. -/
theorem C7_miss_sentinel (env : Env) (idx : ℕ) (row : List String) (st : MState) :
    (∀ cell : String, row.get? (NAME_COL - 1) = some cell → pyStrip cell = "" →
      processRow env idx row st = (.ok (), st, []))
    ∧ (∀ (cell : String) (st2 : MState) (ev : List SEvent),
        row.get? (NAME_COL - 1) = some cell → pyStrip cell ≠ "" →
        scanStores env idx (pyStrip cell) STORES st = (.ok none, st2, ev) →
        env.writeOK st2.writes = true → env.writeOK (st2.writes + 1) = true →
        env.writeOK (st2.writes + 2) = true →
        processRow env idx row st =
          (.ok (), ⟨st2.fs, st2.writes + 3⟩,
            ev ++ [SEvent.write idx PRICE_COL (.str "N/A"),
                   SEvent.write idx STORE_COL (.str ""),
                   SEvent.write idx URL_COL (.str "")])) := by
  constructor
  · intro cell hc hblank
    simp only [processRow, hc]
    rw [if_pos hblank]
  · intro cell st2 ev hc hnb hscan h0 h1 h2
    simp only [processRow, hc]
    rw [if_neg hnb, hscan]
    simp [writeCells_three env st2 _ _ _ h0 h1 h2]

/-- Witness for C7: every store misses in the all-failing environment, so
the row for item `x` receives the sentinel and cleared cells. -/
theorem C7_miss_sentinel_witness :
    processRow c7Env 2 ["", "", "", "", "x"] ⟨⟨none, 0⟩, 0⟩ =
      (.ok (),
        ⟨(scanStores c7Env 2 "x" STORES ⟨⟨none, 0⟩, 0⟩).2.1.fs,
         (scanStores c7Env 2 "x" STORES ⟨⟨none, 0⟩, 0⟩).2.1.writes + 3⟩,
        (scanStores c7Env 2 "x" STORES ⟨⟨none, 0⟩, 0⟩).2.2 ++
          [SEvent.write 2 PRICE_COL (.str "N/A"),
           SEvent.write 2 STORE_COL (.str ""),
           SEvent.write 2 URL_COL (.str "")]) :=
  (C7_miss_sentinel c7Env 2 ["", "", "", "", "x"] ⟨⟨none, 0⟩, 0⟩).2 "x"
    (scanStores c7Env 2 "x" STORES ⟨⟨none, 0⟩, 0⟩).2.1
    (scanStores c7Env 2 "x" STORES ⟨⟨none, 0⟩, 0⟩).2.2
    rfl (by decide) (by rfl) rfl rfl rfl

/-- The only exception a write sequence raises is the write error. -/
theorem writeCells_err (env : Env) :
    ∀ (ws : List (ℕ × ℕ × CellVal)) (st : MState) (e : PyErr),
      (writeCells env ws st).1 = .error e → e = .write := by
  intro ws
  induction ws with
  | nil =>
    intro st e h
    exact absurd h (by simp [writeCells])
  | cons w rest ih =>
    intro st e h
    obtain ⟨r, c, v⟩ := w
    cases hw : env.writeOK st.writes with
    | true =>
      simp only [writeCells, updateCell, hw, if_true] at h
      exact ih _ e h
    | false =>
      simp only [writeCells, updateCell, hw, Bool.false_eq_true, if_false] at h
      injection h with h1
      exact h1.symm

/-- The only exception the store scan raises is the write error. -/
theorem scanStores_err (env : Env) (idx : ℕ) (nm : String) :
    ∀ (stores : List Store) (st : MState) (e : PyErr),
      (scanStores env idx nm stores st).1 = .error e → e = .write := by
  intro stores
  induction stores with
  | nil =>
    intro st e h
    exact absurd h (by simp [scanStores])
  | cons s rest ih =>
    intro st e h
    rcases hf : fetch_from_store env nm s st.fs with ⟨⟨sn, url, price⟩, fs2, ev⟩
    simp only [scanStores, hf] at h
    by_cases hq : quoteOK sn price = true
    · rw [if_pos hq] at h
      rcases hw : writeCells env
          [(idx, STORE_COL, .str (sn.getD "")), (idx, URL_COL, cellOfUrl url),
           (idx, PRICE_COL, .num (price.getD 0))] ⟨fs2, st.writes⟩ with ⟨res, st3, ev2⟩
      rw [hw] at h
      cases res with
      | ok u => simp at h
      | error e2 =>
        simp only at h
        have he2 : e2 = .write := writeCells_err env _ _ e2 (by rw [hw])
        rw [← he2]
        injection h with h1
        exact h1.symm
    · rw [if_neg hq] at h
      exact ih _ e h

/-- C10: the scanner reads the item-name cell by unguarded positional
index: a data row with fewer than `NAME_COL` cells makes the row step
raise the index error and makes the whole scan abort (independently of
the remaining rows) instead of skipping the row; a row with at least
`NAME_COL` cells can never produce the index error. -/
theorem C10_name_cell_index (env : Env) (idx : ℕ) (row : List String) (st : MState) :
    (row.length < NAME_COL → processRow env idx row st = (.error .index, st, []))
    ∧ (NAME_COL ≤ row.length → (processRow env idx row st).1 ≠ Except.error .index)
    ∧ (∀ (hdr : List String) (rest : List (List String)), row.length < NAME_COL →
        main env (hdr :: row :: rest) = (.error .index, [])) := by
  have hpart0 : ∀ (idx2 : ℕ) (st2 : MState), row.length < NAME_COL →
      processRow env idx2 row st2 = (.error .index, st2, []) := by
    intro idx2 st2 h
    have hn : row.get? (NAME_COL - 1) = none := by
      rw [List.get?_eq_none]
      simp only [NAME_COL] at h ⊢
      omega
    simp only [processRow, hn]
  refine ⟨hpart0 idx st, ?_, ?_⟩
  · intro hlen
    have hlt : NAME_COL - 1 < row.length := by
      simp only [NAME_COL] at hlen ⊢
      omega
    obtain ⟨cell, hc⟩ : ∃ cell, row.get? (NAME_COL - 1) = some cell :=
      ⟨row.get ⟨NAME_COL - 1, hlt⟩, List.get?_eq_get hlt⟩
    simp only [processRow, hc]
    by_cases hb : pyStrip cell = ""
    · rw [if_pos hb]
      simp
    · rw [if_neg hb]
      rcases hs : scanStores env idx (pyStrip cell) STORES st with ⟨r, st2, ev⟩
      cases r with
      | error e =>
        have he : e = .write := scanStores_err env idx _ STORES st e (by rw [hs])
        subst he
        simp [hs]
      | ok o =>
        cases o with
        | some u => simp [hs]
        | none =>
          rcases hw : writeCells env
              [(idx, PRICE_COL, .str "N/A"), (idx, STORE_COL, .str ""),
               (idx, URL_COL, .str "")] st2 with ⟨res, st3, ev2⟩
          cases res with
          | ok u => simp [hs, hw]
          | error e2 =>
            have he2 : e2 = .write := writeCells_err env _ _ e2 (by rw [hw])
            subst he2
            simp [hs, hw]
  · intro hdr rest hshort
    have hml : mainLoop env (row :: rest) 2 ⟨⟨none, 0⟩, 0⟩ =
        (.error .index, ⟨⟨none, 0⟩, 0⟩, []) := by
      simp [mainLoop, hpart0 2 ⟨⟨none, 0⟩, 0⟩ hshort]
    simp [main, hml]

/-- Witness for C10: a one-cell row makes the row step raise the index
error without writing anything. -/
theorem C10_name_cell_index_witness :
    processRow w10Env 2 ["a"] ⟨⟨none, 0⟩, 0⟩ = (.error .index, ⟨⟨none, 0⟩, 0⟩, []) :=
  (C10_name_cell_index w10Env 2 ["a"] ⟨⟨none, 0⟩, 0⟩).1 (by decide)

/-- Event counts add over concatenated traces. -/
theorem countEv_append (e : SEvent) (l1 l2 : List SEvent) :
    countEv e (l1 ++ l2) = countEv e l1 + countEv e l2 := by
  induction l1 with
  | nil => simp [countEv]
  | cons x l ih => simp [countEv, ih, Nat.add_assoc]

/-- An event of count zero does not occur. -/
theorem countEv_zero_not_mem (e : SEvent) (l : List SEvent)
    (h : countEv e l = 0) : e ∉ l := by
  induction l with
  | nil => simp
  | cons x l ih =>
    simp only [countEv] at h
    by_cases hx : x = e
    · rw [if_pos hx] at h
      exact absurd h (by omega)
    · rw [if_neg hx] at h
      intro hmem
      rcases List.mem_cons.mp hmem with rfl | hm
      · exact hx rfl
      · exact ih (by omega) hm

/-- Membership in `dropLast` implies membership. -/
theorem mem_of_mem_dropLast {α : Type} :
    ∀ (l : List α) (a : α), a ∈ l.dropLast → a ∈ l := by
  intro l
  induction l with
  | nil =>
    intro a h
    simp at h
  | cons x t ih =>
    intro a h
    cases t with
    | nil => simp [List.dropLast] at h
    | cons y t2 =>
      simp only [List.dropLast] at h
      rcases List.mem_cons.mp h with rfl | hm
      · exact List.mem_cons_self a _
      · exact List.mem_cons_of_mem x (ih a hm)

/-- Dropping the last element of an appended singleton. -/
theorem dropLast_append_single {α : Type} (l : List α) (a : α) :
    (l ++ [a]).dropLast = l := by
  simp

/-- A fragment of neutral events preserves the driver invariant. -/
theorem driverInv_neutral (d : Option Unit) (ev : List SEvent)
    (h1 : countEv .create ev = 0) (h2 : countEv .createFail ev = 0)
    (h3 : countEv .quit ev = 0) : DriverInv d d ev :=
  ⟨h3, fun h => ⟨h, h1, h2⟩, fun h => Or.inl ⟨h, h1⟩⟩

/-- The driver invariant composes over sequencing. -/
theorem driverInv_trans {d d2 d3 : Option Unit} {ev1 ev2 : List SEvent}
    (h1 : DriverInv d d2 ev1) (h2 : DriverInv d2 d3 ev2) :
    DriverInv d d3 (ev1 ++ ev2) := by
  obtain ⟨q1, s1, n1⟩ := h1
  obtain ⟨q2, s2, n2⟩ := h2
  refine ⟨by rw [countEv_append, q1, q2], ?_, ?_⟩
  · intro hd
    obtain ⟨hd2, c1, f1⟩ := s1 hd
    obtain ⟨hd3, c2, f2⟩ := s2 hd2
    exact ⟨hd3, by rw [countEv_append, c1, c2], by rw [countEv_append, f1, f2]⟩
  · intro hd
    rcases n1 hd with ⟨hd2, c1⟩ | ⟨hd2, c1⟩
    · rcases n2 hd2 with ⟨hd3, c2⟩ | ⟨hd3, c2⟩
      · exact Or.inl ⟨hd3, by rw [countEv_append, c1, c2]⟩
      · exact Or.inr ⟨hd3, by rw [countEv_append, c1, c2]⟩
    · obtain ⟨hd3, c2, _⟩ := s2 hd2
      exact Or.inr ⟨hd3, by rw [countEv_append, c1, c2]⟩

/-- The selenium stage satisfies the driver invariant: it creates a driver
only when none exists, never twice, and never quits. -/
theorem renderedStage_inv (env : Env) (nm : String) (store : Store) (st : FetchSt) :
    DriverInv st.driver (renderedStage env nm store st).2.1.driver
      (renderedStage env nm store st).2.2 := by
  obtain ⟨d, att⟩ := st
  cases d with
  | some u =>
    cases u
    simp only [renderedStage]
    exact ⟨rfl, fun _ => ⟨rfl, rfl, rfl⟩, fun h => Option.noConfusion h⟩
  | none =>
    cases hc : env.createOK att with
    | true =>
      simp only [renderedStage, hc, if_true]
      exact ⟨rfl, fun h => Option.noConfusion h, fun _ => Or.inr ⟨rfl, rfl⟩⟩
    | false =>
      simp only [renderedStage, hc, Bool.false_eq_true, if_false]
      exact ⟨rfl, fun h => Option.noConfusion h, fun _ => Or.inl ⟨rfl, rfl⟩⟩

/-- The whole store lookup satisfies the driver invariant. -/
theorem fetch_from_store_inv (env : Env) (nm : String) (store : Store) (st : FetchSt) :
    DriverInv st.driver (fetch_from_store env nm store st).2.1.driver
      (fetch_from_store env nm store st).2.2 := by
  cases hd : directStage env nm store with
  | some r =>
    simp only [fetch_from_store, hd]
    exact driverInv_neutral _ _ rfl rfl rfl
  | none =>
    rcases hr : renderedStage env nm store st with ⟨r, st2, ev⟩
    have h2 := renderedStage_inv env nm store st
    rw [hr] at h2
    simp only [fetch_from_store, hd, hr]
    have h1 : DriverInv st.driver st.driver [SEvent.query store.name] :=
      driverInv_neutral _ _ rfl rfl rfl
    have h3 := driverInv_trans h1 h2
    rwa [List.singleton_append] at h3

/-- A write sequence emits only write events and preserves driver state. -/
theorem writeCells_neutral (env : Env) :
    ∀ (ws : List (ℕ × ℕ × CellVal)) (st : MState),
      (writeCells env ws st).2.1.fs = st.fs
      ∧ countEv .create (writeCells env ws st).2.2 = 0
      ∧ countEv .createFail (writeCells env ws st).2.2 = 0
      ∧ countEv .quit (writeCells env ws st).2.2 = 0 := by
  intro ws
  induction ws with
  | nil =>
    intro st
    exact ⟨rfl, rfl, rfl, rfl⟩
  | cons w rest ih =>
    intro st
    obtain ⟨r, c, v⟩ := w
    cases hw : env.writeOK st.writes with
    | false => simp [writeCells, updateCell, hw, countEv]
    | true =>
      simp only [writeCells, updateCell, hw, if_true]
      rcases hrec : writeCells env rest ⟨st.fs, st.writes + 1⟩ with ⟨res, st3, ev2⟩
      have hall := ih ⟨st.fs, st.writes + 1⟩
      rw [hrec] at hall
      have hfs : st3.fs = st.fs := hall.1
      have h1 : countEv .create ev2 = 0 := hall.2.1
      have h2 : countEv .createFail ev2 = 0 := hall.2.2.1
      have h3 : countEv .quit ev2 = 0 := hall.2.2.2
      refine ⟨hfs, ?_, ?_, ?_⟩ <;>
        simp [countEv_append, countEv, h1, h2, h3]

/-- The store loop satisfies the driver invariant. -/
theorem scanStores_inv (env : Env) (idx : ℕ) (nm : String) :
    ∀ (stores : List Store) (st : MState),
      DriverInv st.fs.driver (scanStores env idx nm stores st).2.1.fs.driver
        (scanStores env idx nm stores st).2.2 := by
  intro stores
  induction stores with
  | nil =>
    intro st
    exact driverInv_neutral _ _ rfl rfl rfl
  | cons s rest ih =>
    intro st
    rcases hf : fetch_from_store env nm s st.fs with ⟨⟨sn, url, price⟩, fs2, ev⟩
    have hfi0 := fetch_from_store_inv env nm s st.fs
    rw [hf] at hfi0
    have hfi : DriverInv st.fs.driver fs2.driver ev := hfi0
    simp only [scanStores, hf]
    by_cases hq : quoteOK sn price = true
    · rw [if_pos hq]
      rcases hw : writeCells env
          [(idx, STORE_COL, .str (sn.getD "")), (idx, URL_COL, cellOfUrl url),
           (idx, PRICE_COL, .num (price.getD 0))] ⟨fs2, st.writes⟩ with ⟨res, st3, ev2⟩
      have hwn := writeCells_neutral env
        [(idx, STORE_COL, .str (sn.getD "")), (idx, URL_COL, cellOfUrl url),
         (idx, PRICE_COL, .num (price.getD 0))] ⟨fs2, st.writes⟩
      rw [hw] at hwn
      have hfs : st3.fs = fs2 := hwn.1
      have hinv2 : DriverInv fs2.driver st3.fs.driver ev2 := by
        rw [hfs]
        exact driverInv_neutral _ _ hwn.2.1 hwn.2.2.1 hwn.2.2.2
      have hcomp := driverInv_trans hfi hinv2
      cases res with
      | ok u => exact hcomp
      | error e => exact hcomp
    · rw [if_neg hq]
      rcases hs : scanStores env idx nm rest ⟨fs2, st.writes⟩ with ⟨r2, st4, ev4⟩
      have hri0 := ih ⟨fs2, st.writes⟩
      rw [hs] at hri0
      have hri : DriverInv fs2.driver st4.fs.driver ev4 := hri0
      exact driverInv_trans hfi hri

/-- One row step satisfies the driver invariant. -/
theorem processRow_inv (env : Env) (idx : ℕ) (row : List String) (st : MState) :
    DriverInv st.fs.driver (processRow env idx row st).2.1.fs.driver
      (processRow env idx row st).2.2 := by
  cases hc : row.get? (NAME_COL - 1) with
  | none =>
    simp only [processRow, hc]
    exact driverInv_neutral _ _ rfl rfl rfl
  | some cell =>
    simp only [processRow, hc]
    by_cases hb : pyStrip cell = ""
    · rw [if_pos hb]
      exact driverInv_neutral _ _ rfl rfl rfl
    · rw [if_neg hb]
      rcases hs : scanStores env idx (pyStrip cell) STORES st with ⟨r, st2, ev⟩
      have hsi0 := scanStores_inv env idx (pyStrip cell) STORES st
      rw [hs] at hsi0
      have hsi : DriverInv st.fs.driver st2.fs.driver ev := hsi0
      cases r with
      | error e => exact hsi
      | ok o =>
        cases o with
        | some u => exact hsi
        | none =>
          dsimp only
          rcases hw : writeCells env
              [(idx, PRICE_COL, .str "N/A"), (idx, STORE_COL, .str ""),
               (idx, URL_COL, .str "")] st2 with ⟨res, st3, ev2⟩
          have hwn := writeCells_neutral env
            [(idx, PRICE_COL, .str "N/A"), (idx, STORE_COL, .str ""),
             (idx, URL_COL, .str "")] st2
          rw [hw] at hwn
          have hfs : st3.fs = st2.fs := hwn.1
          have hinv2 : DriverInv st2.fs.driver st3.fs.driver ev2 := by
            rw [hfs]
            exact driverInv_neutral _ _ hwn.2.1 hwn.2.2.1 hwn.2.2.2
          exact driverInv_trans hsi hinv2

/-- The whole row loop satisfies the driver invariant. -/
theorem mainLoop_inv (env : Env) :
    ∀ (rows : List (List String)) (idx : ℕ) (st : MState),
      DriverInv st.fs.driver (mainLoop env rows idx st).2.1.fs.driver
        (mainLoop env rows idx st).2.2 := by
  intro rows
  induction rows with
  | nil =>
    intro idx st
    exact driverInv_neutral _ _ rfl rfl rfl
  | cons row rest ih =>
    intro idx st
    rcases hp : processRow env idx row st with ⟨r, st2, ev⟩
    have hpi0 := processRow_inv env idx row st
    rw [hp] at hpi0
    have hpi : DriverInv st.fs.driver st2.fs.driver ev := hpi0
    simp only [mainLoop, hp]
    cases r with
    | error e => exact hpi
    | ok u =>
      dsimp only
      rcases hm : mainLoop env rest (idx + 1) st2 with ⟨r2, st3, ev2⟩
      have hmi0 := ih (idx + 1) st2
      rw [hm] at hmi0
      have hmi : DriverInv st2.fs.driver st3.fs.driver ev2 := hmi0
      exact driverInv_trans hpi hmi

/-- When the direct stage already yields a result, the lookup returns it
without touching the selenium stage. -/
theorem fetch_direct_some (env : Env) (nm : String) (s : Store) (st : FetchSt)
    (h : (directStage env nm s).isSome = true) :
    fetch_from_store env nm s st =
      (packQuote (directStage env nm s), st, [SEvent.query s.name]) := by
  obtain ⟨r, hr⟩ := Option.isSome_iff_exists.mp h
  simp [fetch_from_store, hr]

/-- When every visited store succeeds directly, the store loop leaves the
driver state untouched and emits no lifecycle event. -/
theorem scanStores_lazy (env : Env) (idx : ℕ) (nm : String) :
    ∀ (stores : List Store) (st : MState),
      (∀ s ∈ stores, (directStage env nm s).isSome = true) →
      (scanStores env idx nm stores st).2.1.fs = st.fs
      ∧ countEv .create (scanStores env idx nm stores st).2.2 = 0
      ∧ countEv .createFail (scanStores env idx nm stores st).2.2 = 0
      ∧ countEv .quit (scanStores env idx nm stores st).2.2 = 0 := by
  intro stores
  induction stores with
  | nil =>
    intro st _
    exact ⟨rfl, rfl, rfl, rfl⟩
  | cons s rest ih =>
    intro st h
    have hfe := fetch_direct_some env nm s st.fs (h s (List.mem_cons_self s rest))
    simp only [scanStores, hfe]
    rcases hd : directStage env nm s with _ | ⟨n, u, p⟩
    · simp only [packQuote]
      rw [if_neg (by simp [quoteOK])]
      rcases hrec : scanStores env idx nm rest ⟨st.fs, st.writes⟩ with ⟨r2, st2, ev2⟩
      have hall := ih ⟨st.fs, st.writes⟩ fun s2 hs2 => h s2 (List.mem_cons_of_mem _ hs2)
      rw [hrec] at hall
      have ha : st2.fs = st.fs := hall.1
      have hb : countEv .create ev2 = 0 := hall.2.1
      have hc2 : countEv .createFail ev2 = 0 := hall.2.2.1
      have hd2 : countEv .quit ev2 = 0 := hall.2.2.2
      exact ⟨ha, by simp [countEv_append, countEv, hb],
        by simp [countEv_append, countEv, hc2], by simp [countEv_append, countEv, hd2]⟩
    · simp only [packQuote]
      by_cases hq : quoteOK (some n) (some p) = true
      · rw [if_pos hq]
        rcases hw : writeCells env
            [(idx, STORE_COL, .str ((some n).getD "")), (idx, URL_COL, cellOfUrl (some u)),
             (idx, PRICE_COL, .num ((some p).getD 0))] ⟨st.fs, st.writes⟩ with ⟨res, st3, ev2⟩
        have hwn := writeCells_neutral env
          [(idx, STORE_COL, .str ((some n).getD "")), (idx, URL_COL, cellOfUrl (some u)),
           (idx, PRICE_COL, .num ((some p).getD 0))] ⟨st.fs, st.writes⟩
        rw [hw] at hwn
        have hfs : st3.fs = st.fs := hwn.1
        have h1 : countEv .create ev2 = 0 := hwn.2.1
        have h2 : countEv .createFail ev2 = 0 := hwn.2.2.1
        have h3 : countEv .quit ev2 = 0 := hwn.2.2.2
        cases res with
        | ok u2 =>
          exact ⟨hfs, by simp [countEv_append, countEv, h1],
            by simp [countEv_append, countEv, h2], by simp [countEv_append, countEv, h3]⟩
        | error e =>
          exact ⟨hfs, by simp [countEv_append, countEv, h1],
            by simp [countEv_append, countEv, h2], by simp [countEv_append, countEv, h3]⟩
      · rw [if_neg hq]
        rcases hrec : scanStores env idx nm rest ⟨st.fs, st.writes⟩ with ⟨r2, st2, ev2⟩
        have hall := ih ⟨st.fs, st.writes⟩ fun s2 hs2 => h s2 (List.mem_cons_of_mem _ hs2)
        rw [hrec] at hall
        have ha : st2.fs = st.fs := hall.1
        have hb : countEv .create ev2 = 0 := hall.2.1
        have hc2 : countEv .createFail ev2 = 0 := hall.2.2.1
        have hd2 : countEv .quit ev2 = 0 := hall.2.2.2
        exact ⟨ha, by simp [countEv_append, countEv, hb],
          by simp [countEv_append, countEv, hc2], by simp [countEv_append, countEv, hd2]⟩

/-- Row-level laziness: with directly-succeeding stores, a row step leaves
the driver state untouched and emits no lifecycle event. -/
theorem processRow_lazy (env : Env) (idx : ℕ) (row : List String) (st : MState)
    (h : ∀ (nm : String) (s : Store), s ∈ STORES → (directStage env nm s).isSome = true) :
    (processRow env idx row st).2.1.fs = st.fs
    ∧ countEv .create (processRow env idx row st).2.2 = 0
    ∧ countEv .createFail (processRow env idx row st).2.2 = 0
    ∧ countEv .quit (processRow env idx row st).2.2 = 0 := by
  cases hc : row.get? (NAME_COL - 1) with
  | none =>
    simp only [processRow, hc]
    simp [countEv]
  | some cell =>
    simp only [processRow, hc]
    by_cases hb : pyStrip cell = ""
    · rw [if_pos hb]
      simp [countEv]
    · rw [if_neg hb]
      rcases hs : scanStores env idx (pyStrip cell) STORES st with ⟨r, st2, ev⟩
      have hall := scanStores_lazy env idx (pyStrip cell) STORES st fun s hsm => h _ s hsm
      rw [hs] at hall
      have ha : st2.fs = st.fs := hall.1
      have h1 : countEv .create ev = 0 := hall.2.1
      have h2 : countEv .createFail ev = 0 := hall.2.2.1
      have h3 : countEv .quit ev = 0 := hall.2.2.2
      cases r with
      | error e => exact ⟨ha, h1, h2, h3⟩
      | ok o =>
        cases o with
        | some u => exact ⟨ha, h1, h2, h3⟩
        | none =>
          dsimp only
          rcases hw : writeCells env
              [(idx, PRICE_COL, .str "N/A"), (idx, STORE_COL, .str ""),
               (idx, URL_COL, .str "")] st2 with ⟨res, st3, ev2⟩
          have hwn := writeCells_neutral env
            [(idx, PRICE_COL, .str "N/A"), (idx, STORE_COL, .str ""),
             (idx, URL_COL, .str "")] st2
          rw [hw] at hwn
          have hfs : st3.fs = st2.fs := hwn.1
          have g1 : countEv .create ev2 = 0 := hwn.2.1
          have g2 : countEv .createFail ev2 = 0 := hwn.2.2.1
          have g3 : countEv .quit ev2 = 0 := hwn.2.2.2
          refine ⟨by rw [hfs, ha], ?_, ?_, ?_⟩ <;>
            simp [countEv_append, h1, h2, h3, g1, g2, g3]

/-- Loop-level laziness. -/
theorem mainLoop_lazy (env : Env)
    (h : ∀ (nm : String) (s : Store), s ∈ STORES → (directStage env nm s).isSome = true) :
    ∀ (rows : List (List String)) (idx : ℕ) (st : MState),
      (mainLoop env rows idx st).2.1.fs = st.fs
      ∧ countEv .create (mainLoop env rows idx st).2.2 = 0
      ∧ countEv .createFail (mainLoop env rows idx st).2.2 = 0
      ∧ countEv .quit (mainLoop env rows idx st).2.2 = 0 := by
  intro rows
  induction rows with
  | nil =>
    intro idx st
    exact ⟨rfl, rfl, rfl, rfl⟩
  | cons row rest ih =>
    intro idx st
    rcases hp : processRow env idx row st with ⟨r, st2, ev⟩
    have hall := processRow_lazy env idx row st h
    rw [hp] at hall
    have ha : st2.fs = st.fs := hall.1
    have h1 : countEv .create ev = 0 := hall.2.1
    have h2 : countEv .createFail ev = 0 := hall.2.2.1
    have h3 : countEv .quit ev = 0 := hall.2.2.2
    simp only [mainLoop, hp]
    cases r with
    | error e => exact ⟨ha, h1, h2, h3⟩
    | ok u =>
      dsimp only
      rcases hm : mainLoop env rest (idx + 1) st2 with ⟨r2, st3, ev2⟩
      have gall := ih (idx + 1) st2
      rw [hm] at gall
      have ga : st3.fs = st2.fs := gall.1
      have g1 : countEv .create ev2 = 0 := gall.2.1
      have g2 : countEv .createFail ev2 = 0 := gall.2.2.1
      have g3 : countEv .quit ev2 = 0 := gall.2.2.2
      refine ⟨by rw [ga, ha], ?_, ?_, ?_⟩ <;>
        simp [countEv_append, h1, h2, h3, g1, g2, g3]

/-- C8: across one run, a live render session is created at most once
(lazily, only when none exists), the trace contains exactly one quit when
a session was created and none otherwise — on every exit path, including
aborts — and any quit is the final event; when every configured store
succeeds at the direct stage no lifecycle event occurs at all; and a
lookup entered with a live driver keeps it and creates nothing. -/
theorem C8_render_session_lifecycle (env : Env) (rows : List (List String)) :
    (countEv .create (main env rows).2 ≤ 1
      ∧ countEv .quit (main env rows).2 = countEv .create (main env rows).2
      ∧ SEvent.quit ∉ (main env rows).2.dropLast)
    ∧ ((∀ (nm : String) (s : Store), s ∈ STORES → (directStage env nm s).isSome = true) →
        countEv .create (main env rows).2 = 0
        ∧ countEv .createFail (main env rows).2 = 0
        ∧ countEv .quit (main env rows).2 = 0)
    ∧ (∀ (nm : String) (s : Store) (fs : FetchSt), fs.driver = some () →
        (fetch_from_store env nm s fs).2.1.driver = some ()
        ∧ countEv .create (fetch_from_store env nm s fs).2.2 = 0
        ∧ countEv .createFail (fetch_from_store env nm s fs).2.2 = 0) := by
  refine ⟨?_, ?_, ?_⟩
  · rcases hm : mainLoop env (rows.drop 1) 2 ⟨⟨none, 0⟩, 0⟩ with ⟨r, stF, evL⟩
    have hinv := mainLoop_inv env (rows.drop 1) 2 ⟨⟨none, 0⟩, 0⟩
    rw [hm] at hinv
    obtain ⟨hq0, _, hn0⟩ := hinv
    have hn1 := hn0 rfl
    simp only [main, hm]
    cases hdrv : stF.fs.driver with
    | none =>
      dsimp only
      rcases hn1 with ⟨_, hcr⟩ | ⟨habs, _⟩
      · rw [List.append_nil]
        refine ⟨by rw [hcr]; omega, by rw [hcr, hq0], ?_⟩
        intro hmem
        exact countEv_zero_not_mem _ _ hq0 (mem_of_mem_dropLast _ _ hmem)
      · rw [hdrv] at habs
        exact Option.noConfusion habs
    | some u =>
      cases u
      dsimp only
      rcases hn1 with ⟨habs, _⟩ | ⟨_, hcr⟩
      · rw [hdrv] at habs
        exact Option.noConfusion habs
      · refine ⟨?_, ?_, ?_⟩
        · rw [countEv_append, hcr]
          simp [countEv]
        · rw [countEv_append, countEv_append, hcr, hq0]
          simp [countEv]
        · rw [dropLast_append_single]
          exact countEv_zero_not_mem _ _ hq0
  · intro hD
    rcases hm : mainLoop env (rows.drop 1) 2 ⟨⟨none, 0⟩, 0⟩ with ⟨r, stF, evL⟩
    have hall := mainLoop_lazy env hD (rows.drop 1) 2 ⟨⟨none, 0⟩, 0⟩
    rw [hm] at hall
    have ha : stF.fs = ⟨none, 0⟩ := hall.1
    have h1 : countEv .create evL = 0 := hall.2.1
    have h2 : countEv .createFail evL = 0 := hall.2.2.1
    have h3 : countEv .quit evL = 0 := hall.2.2.2
    simp only [main, hm]
    rw [ha]
    refine ⟨?_, ?_, ?_⟩ <;> simp [countEv_append, countEv, h1, h2, h3]
  · intro nm s fs hdrv
    have hfi := fetch_from_store_inv env nm s fs
    obtain ⟨_, hsome, _⟩ := hfi
    obtain ⟨hd2, hc1, hc2⟩ := hsome hdrv
    exact ⟨hd2, hc1, hc2⟩

/-- Witness for C8: a run whose single item is priced by every store's
direct stage creates no session, fails no creation and quits nothing. -/
theorem C8_render_session_lifecycle_witness :
    countEv SEvent.create (main w8Env w8Rows).2 = 0
    ∧ countEv SEvent.createFail (main w8Env w8Rows).2 = 0
    ∧ countEv SEvent.quit (main w8Env w8Rows).2 = 0 :=
  (C8_render_session_lifecycle w8Env w8Rows).2.1 (by
    intro nm s hs
    fin_cases hs <;> rfl)

end FoodPriceFinder
